import Mathlib

/-!
Verification development for the multi-tenant research portal.

The development shallowly embeds the two Python modules of the repository:

* `rate_limit.py` — the process-wide usage tracker (`get_usage_tracker`,
  `get_limit_config`, `check_and_update_limit`);
* `app.py` — the document aggregator (`list_files_in_folder`,
  `download_file_content`, `load_client_data`), the answer generator
  (`generate_response`), authentication (`authenticate_client`) and the
  chat-turn flow of `main`.

Machine-level concerns (Python `dict` iteration order, wall-clock time,
network I/O) are modelled explicitly: the tracker is an insertion-ordered
association list, the current time is a record of the calendar fields that
`strftime` reads, and remote collaborators (Drive, docx parser, Gemini) are
function parameters.
-/

namespace ResearchPortal

/-! ### Decimal rendering (model of `strftime` numeric fields)

`strftime("%Y-%m-%d_%H")` renders each calendar field in decimal,
zero-padding `%m`, `%d`, `%H` to two digits.  We render a `Nat` in decimal
ourselves so that we can reason about the characters that can occur. -/

/-- The decimal digit character for `n` (values `≥ 9` all render as `'9'`;
only `n < 10` is ever used). -/
def digitChar10 (n : Nat) : Char :=
  if n = 0 then '0' else if n = 1 then '1' else if n = 2 then '2'
  else if n = 3 then '3' else if n = 4 then '4' else if n = 5 then '5'
  else if n = 6 then '6' else if n = 7 then '7' else if n = 8 then '8' else '9'

/-- Decimal digit characters of `n`, most significant first, with an
explicit fuel (always called with enough fuel: `n` has at most `n + 1`
decimal digits). -/
def natDigitsAux : Nat → Nat → List Char
  | 0, _ => []
  | fuel + 1, n =>
      if n < 10 then [digitChar10 n]
      else natDigitsAux fuel (n / 10) ++ [digitChar10 (n % 10)]

/-- Decimal digit characters of `n`, most significant first. -/
def natDigits (n : Nat) : List Char :=
  natDigitsAux (n + 1) n

/-- Decimal rendering of a natural number, e.g. `natStr 2023 = "2023"`. -/
def natStr (n : Nat) : String :=
  String.mk (natDigits n)

/-- Two-digit zero-padded rendering, as `strftime`'s `%m`, `%d`, `%H`. -/
def pad2 (n : Nat) : String :=
  if n < 10 then "0" ++ natStr n else natStr n

/-- The calendar fields of `datetime.now()` that the rate limiter reads. -/
structure DateTime where
  year : Nat
  month : Nat
  day : Nat
  hour : Nat
deriving DecidableEq, Repr

/-- `now.strftime("%Y-%m-%d")` — the day-granularity time key. -/
def dayTimeKey (now : DateTime) : String :=
  natStr now.year ++ "-" ++ pad2 now.month ++ "-" ++ pad2 now.day

/-- `now.strftime("%Y-%m-%d_%H")` — the hour-granularity time key. -/
def hourTimeKey (now : DateTime) : String :=
  dayTimeKey now ++ "_" ++ pad2 now.hour

/-! ### `rate_limit.py` -/

/-- The shared tracker dictionary returned by `get_usage_tracker`:
an insertion-ordered map from storage key to counter, as a Python `dict`. -/
abbrev Tracker := List (String × Nat)

/-- `k in tracker` / `tracker[k]` — lookup in the tracker dictionary. -/
def trackerGet : Tracker → String → Option Nat
  | [], _ => none
  | (k', v') :: t, k => if k' = k then some v' else trackerGet t k

/-- `tracker[k] = v` — update an existing key in place, else append. -/
def trackerSet : Tracker → String → Nat → Tracker
  | [], k, v => [(k, v)]
  | (k', v') :: t, k, v =>
      if k' = k then (k, v) :: t else (k', v') :: trackerSet t k v

/-- The counter stored for a key, a missing entry read as `0`. -/
def trackerCount (t : Tracker) (k : String) : Nat :=
  (trackerGet t k).getD 0

/-- `get_limit_config(client_id)` from `rate_limit.py`:
demo accounts get 30 per hour, everyone else 300 per day. -/
def get_limit_config (client_id : String) : Nat × String :=
  if client_id ∈ (["demo", "demo2"] : List String) then (30, "hour")
  else (300, "day")

/-- The `time_key` computed inside `check_and_update_limit`. -/
def time_key (period_type : String) (now : DateTime) : String :=
  if period_type = "hour" then hourTimeKey now else dayTimeKey now

/-- The `storage_key` computed inside `check_and_update_limit`:
`f"{client_id}_{time_key}"`. -/
def storage_key (client_id : String) (now : DateTime) : String :=
  client_id ++ "_" ++ time_key (get_limit_config client_id).2 now

/-- `check_and_update_limit(client_id)` from `rate_limit.py`, with the
current time and the shared tracker passed explicitly.  Returns the Python
result tuple `(is_allowed, current_count, max_limit, period_name)` together
with the tracker after the call. -/
def check_and_update_limit (client_id : String) (now : DateTime)
    (tracker : Tracker) : (Bool × Nat × Nat × String) × Tracker :=
  let limit := (get_limit_config client_id).1
  let period_type := (get_limit_config client_id).2
  let key := storage_key client_id now
  let tracker1 := if (trackerGet tracker key).isSome then tracker
                  else trackerSet tracker key 0
  let cur := (trackerGet tracker1 key).getD 0
  if cur ≥ limit then ((false, cur, limit, period_type), tracker1)
  else ((true, cur + 1, limit, period_type), trackerSet tracker1 key (cur + 1))

/-- Run a sequence of `check_and_update_limit` calls against the shared
tracker, each call given by the client id and the wall-clock time at which
it happens.  Returns the result list and the final tracker. -/
def runChecks : List (String × DateTime) → Tracker →
    List (Bool × Nat × Nat × String) × Tracker
  | [], t => ([], t)
  | (c, n) :: rest, t =>
      let (r, t') := check_and_update_limit c n t
      let (rs, t'') := runChecks rest t'
      (r :: rs, t'')

/-! ### UTF-8 decoding (model of `bytes.decode('utf-8', errors=...)`)

`download_file_content` decodes raw bytes with `errors='ignore'`, which
drops the maximal ill-formed subpart of each invalid sequence and
continues.  `utf8DecodeCore err` emits `err` at each such error point, so
`err = []` is the `ignore` handler and `err = ['�']` the `replace`
handler. -/

/-- Is `b` a UTF-8 continuation byte (`0x80–0xBF`)? -/
def utf8Cont (b : Nat) : Bool :=
  decide (0x80 ≤ b) && decide (b ≤ 0xBF)

/-- Allowed second byte of a three-byte sequence with lead `b1`
(excluding overlong encodings and surrogates, as CPython does). -/
def utf8Second3 (b1 b2 : Nat) : Bool :=
  if b1 = 0xE0 then decide (0xA0 ≤ b2) && decide (b2 ≤ 0xBF)
  else if b1 = 0xED then decide (0x80 ≤ b2) && decide (b2 ≤ 0x9F)
  else utf8Cont b2

/-- Allowed second byte of a four-byte sequence with lead `b1`
(excluding overlong encodings and code points above `U+10FFFF`). -/
def utf8Second4 (b1 b2 : Nat) : Bool :=
  if b1 = 0xF0 then decide (0x90 ≤ b2) && decide (b2 ≤ 0xBF)
  else if b1 = 0xF4 then decide (0x80 ≤ b2) && decide (b2 ≤ 0x8F)
  else utf8Cont b2

/-- UTF-8 decoder with an explicit error emission `err`: each maximal
ill-formed subpart is replaced by `err` and decoding resumes at the next
byte after it.  The fuel argument only bounds recursion depth; every
recursive call consumes at least one byte, so `bytes.length` fuel is
always enough. -/
def utf8DecodeCoreAux (err : List Char) : Nat → List Nat → List Char
  | 0, _ => []
  | fuel + 1, bytes =>
    match bytes with
    | [] => []
    | b1 :: rest =>
      if b1 < 0x80 then Char.ofNat b1 :: utf8DecodeCoreAux err fuel rest
      else if 0xC2 ≤ b1 ∧ b1 ≤ 0xDF then
        match rest with
        | [] => err
        | b2 :: rest2 =>
          if utf8Cont b2 then
            Char.ofNat ((b1 - 0xC0) * 0x40 + (b2 - 0x80)) ::
              utf8DecodeCoreAux err fuel rest2
          else err ++ utf8DecodeCoreAux err fuel (b2 :: rest2)
      else if 0xE0 ≤ b1 ∧ b1 ≤ 0xEF then
        match rest with
        | [] => err
        | b2 :: rest2 =>
          if utf8Second3 b1 b2 then
            match rest2 with
            | [] => err
            | b3 :: rest3 =>
              if utf8Cont b3 then
                Char.ofNat ((b1 - 0xE0) * 0x1000 + (b2 - 0x80) * 0x40 + (b3 - 0x80)) ::
                  utf8DecodeCoreAux err fuel rest3
              else err ++ utf8DecodeCoreAux err fuel (b3 :: rest3)
          else err ++ utf8DecodeCoreAux err fuel (b2 :: rest2)
      else if 0xF0 ≤ b1 ∧ b1 ≤ 0xF4 then
        match rest with
        | [] => err
        | b2 :: rest2 =>
          if utf8Second4 b1 b2 then
            match rest2 with
            | [] => err
            | b3 :: rest3 =>
              if utf8Cont b3 then
                match rest3 with
                | [] => err
                | b4 :: rest4 =>
                  if utf8Cont b4 then
                    Char.ofNat ((b1 - 0xF0) * 0x40000 + (b2 - 0x80) * 0x1000 +
                        (b3 - 0x80) * 0x40 + (b4 - 0x80)) ::
                      utf8DecodeCoreAux err fuel rest4
                  else err ++ utf8DecodeCoreAux err fuel (b4 :: rest4)
              else err ++ utf8DecodeCoreAux err fuel (b3 :: rest3)
          else err ++ utf8DecodeCoreAux err fuel (b2 :: rest2)
      else err ++ utf8DecodeCoreAux err fuel rest

/-- UTF-8 decoding of a whole byte string with error emission `err`. -/
def utf8DecodeCore (err : List Char) (bytes : List Nat) : List Char :=
  utf8DecodeCoreAux err bytes.length bytes

/-- `bytes.decode('utf-8', errors='ignore')`: undecodable bytes are
dropped, never raising an error. -/
def utf8DecodeIgnore (bytes : List Nat) : String :=
  String.mk (utf8DecodeCore [] bytes)

/-- Modelled from the spec: `bytes.decode('utf-8', errors='replace')`,
the behaviour the spec describes ("replacing undecodable bytes"): each
maximal ill-formed subpart becomes one `U+FFFD` replacement character.
Stated for comparison with the source's `errors='ignore'`. -/
def utf8DecodeReplaceSpec (bytes : List Nat) : String :=
  String.mk (utf8DecodeCore [Char.ofNat 0xFFFD] bytes)

/-- A strict UTF-8 decoder, failing on the first ill-formed sequence;
the notion of "causing a failure" the spec contrasts with. -/
def utf8DecodeStrict (bytes : List Nat) : Option (List Char) :=
  match bytes with
  | [] => some []
  | b1 :: rest =>
    if b1 < 0x80 then
      (utf8DecodeStrict rest).map (fun cs => Char.ofNat b1 :: cs)
    else if 0xC2 ≤ b1 ∧ b1 ≤ 0xDF then
      match rest with
      | [] => none
      | b2 :: rest2 =>
        if utf8Cont b2 then
          (utf8DecodeStrict rest2).map
            (fun cs => Char.ofNat ((b1 - 0xC0) * 0x40 + (b2 - 0x80)) :: cs)
        else none
    else if 0xE0 ≤ b1 ∧ b1 ≤ 0xEF then
      match rest with
      | [] => none
      | b2 :: rest2 =>
        if utf8Second3 b1 b2 then
          match rest2 with
          | [] => none
          | b3 :: rest3 =>
            if utf8Cont b3 then
              (utf8DecodeStrict rest3).map
                (fun cs =>
                  Char.ofNat ((b1 - 0xE0) * 0x1000 + (b2 - 0x80) * 0x40 + (b3 - 0x80)) :: cs)
            else none
        else none
    else if 0xF0 ≤ b1 ∧ b1 ≤ 0xF4 then
      match rest with
      | [] => none
      | b2 :: rest2 =>
        if utf8Second4 b1 b2 then
          match rest2 with
          | [] => none
          | b3 :: rest3 =>
            if utf8Cont b3 then
              match rest3 with
              | [] => none
              | b4 :: rest4 =>
                if utf8Cont b4 then
                  (utf8DecodeStrict rest4).map
                    (fun cs =>
                      Char.ofNat ((b1 - 0xF0) * 0x40000 + (b2 - 0x80) * 0x1000 +
                        (b3 - 0x80) * 0x40 + (b4 - 0x80)) :: cs)
                else none
            else none
        else none
    else none

/-! ### `app.py` — Document Aggregator -/

/-- The MIME type Drive reports for folders. -/
def folderMime : String := "application/vnd.google-apps.folder"

/-- The MIME type of a cloud-native Google Doc. -/
def gdocMime : String := "application/vnd.google-apps.document"

/-- The MIME type of a word-processor (`.docx`) document. -/
def docxMime : String :=
  "application/vnd.openxmlformats-officedocument.wordprocessingml.document"

/-- One entry of a Drive listing: `id`, `name`, `mimeType`. -/
structure FileInfo where
  id : String
  name : String
  mimeType : String
deriving DecidableEq, Repr

/-- A remote Drive entry together with its subtree (folders carry their
children; for non-folder entries the child list is ignored, the code
never asks Drive for children of a file). -/
inductive DriveEntry where
  | node (id name mimeType : String) (children : List DriveEntry)
deriving Repr

/-- `list_files_in_folder` from `app.py`, over the listed entries of the
folder: entries whose MIME type marks a folder are expanded depth-first in
listing order, all other entries are collected.  The Python recursion has
no depth bound (the spec flags this as an open question); the model takes
an explicit fuel that bounds the traversal and is quantified in every
theorem, so no statement depends on a particular bound. -/
def list_files_in_folder : Nat → List DriveEntry → List FileInfo
  | 0, _ => []
  | fuel + 1, es =>
    match es with
    | [] => []
    | DriveEntry.node i nm m cs :: rest =>
        (if m = folderMime then list_files_in_folder fuel cs else [⟨i, nm, m⟩]) ++
          list_files_in_folder fuel rest

/-- The remote collaborators behind an authenticated Drive service:
text export of a Google Doc, raw media download, and the docx paragraph
extractor (`docx.Document(...).paragraphs`).  The two fetch operations
return the downloaded bytes or the message of the raised exception. -/
structure DriveService where
  exportMedia : String → Except String (List Nat)
  getMedia : String → Except String (List Nat)
  docxParagraphs : List Nat → List String

/-- `download_file_content(service, file_id, mime_type)` from `app.py`:
Google Docs are fetched via text export, everything else via raw download;
docx bytes are converted by joining paragraph texts with newlines, other
bytes are decoded as UTF-8 ignoring undecodable bytes; any fetch failure
yields the placeholder `"[Error reading file: ...]"` string. -/
def download_file_content (service : DriveService) (file_id : String)
    (mime_type : String) : String :=
  match (if mime_type = gdocMime then service.exportMedia file_id
         else service.getMedia file_id) with
  | Except.error e => "[Error reading file: " ++ e ++ "]"
  | Except.ok bytes =>
      if mime_type = docxMime then
        String.intercalate "\n" (service.docxParagraphs bytes)
      else utf8DecodeIgnore bytes

/-- The `supported_mimes` allow-list of `load_client_data`. -/
def supported_mimes : List String :=
  ["text/plain", "text/csv", docxMime, gdocMime]

/-- Lookup in a string-valued Python dictionary (`CLIENT_DATABASE`). -/
def dbGet : List (String × String) → String → Option String
  | [], _ => none
  | (k', v') :: t, k => if k' = k then some v' else dbGet t k

/-- `load_client_data(client_id)` from `app.py`, with `CLIENT_DATABASE`,
the (possibly failed) Drive service and the folder trees passed
explicitly.  Returns `(full_transcript_context, file_count)`. -/
def load_client_data (db : List (String × String)) (svc : Option DriveService)
    (folderChildren : String → List DriveEntry) (fuel : Nat)
    (client_id : String) : String × Nat :=
  match dbGet db client_id with
  | none => ("", 0)
  | some folder_id =>
    match svc with
    | none => ("", 0)
    | some service =>
      let files := list_files_in_folder fuel (folderChildren folder_id)
      let relevant_files := files.filter (fun f => f.mimeType ∈ supported_mimes)
      let combined_content := relevant_files.foldl
        (fun acc f => acc ++
          ["=== FILE: " ++ f.name ++ " ===\n" ++
            download_file_content service f.id f.mimeType ++ "\n"]) []
      (String.intercalate "\n\n" combined_content, relevant_files.length)

/-! ### `app.py` — Answer Generator -/

/-- One chat message, `{"role": ..., "content": ...}`. -/
structure Msg where
  role : String
  content : String
deriving DecidableEq, Repr

/-- The `base_persona` literal of `generate_response`. -/
def base_persona : String :=
  "You are an expert Research Analyst (not an Interviewer). You have access to the COMPLETE dataset.\n    CRITICAL INSTRUCTIONS:\n    - Scan the ENTIRE text for counts.\n    - Cite specific quotes where helpful.\n    - If you cannot find info, state that.\n    - If asked for a count, you MUST scan the ENTIRE text to find EVERY instance.\n    - Do not estimate.\n    - List the specific quotes or participants if possible to verify your count."

/-- The `history_text` accumulation of `generate_response`: all prior
turns except the in-flight last one, rendered as `User:` /
`Research Analyst:` lines. -/
def history_text (chat_history : List Msg) : String :=
  chat_history.dropLast.foldl
    (fun acc msg =>
      acc ++ (if msg.role = "user" then "User" else "Research Analyst") ++
        ": " ++ msg.content ++ "\n\n") ""

/-- The prompt f-string of `generate_response`: persona block, complete
research data block, conversation history block, current question. -/
def build_prompt (full_context user_query : String) (chat_history : List Msg)
    (custom_persona : String) : String :=
  (if custom_persona ≠ "" then
      base_persona ++ "\n\nADDITIONAL CONTEXT:\n" ++ custom_persona
   else base_persona) ++
  "\n\n=== COMPLETE RESEARCH DATA ===\n" ++ full_context ++
  "\n\n=== CONVERSATION HISTORY ===\n" ++ history_text chat_history ++
  "\n\n=== CURRENT USER QUESTION ===\n" ++ user_query ++ "\n"

/-- `generate_response` from `app.py`, with the Gemini call modelled as a
function from prompt and temperature to generated text or failure
message.  A collaborator failure is caught and rendered as
`"Error generating response: ..."`. -/
def generate_response (client : String → ℚ → Except String String)
    (full_context user_query : String) (chat_history : List Msg)
    (custom_persona : String) (temperature : ℚ) : String :=
  match client (build_prompt full_context user_query chat_history custom_persona)
      temperature with
  | Except.ok t => t
  | Except.error e => "Error generating response: " ++ e

/-! ### `app.py` — Authentication and session flow -/

/-- The manual-login branch of `authenticate_client`: a non-empty entered
access id is accepted iff it is a key of `CLIENT_DATABASE`. -/
def authManualInput (db : List (String × String)) (access_id : String) :
    Option String :=
  if access_id ≠ "" then
    if (dbGet db access_id).isSome then some access_id else none
  else none

/-- `authenticate_client` from `app.py`: a non-empty `client_id` URL
parameter that is a key of `CLIENT_DATABASE` wins; otherwise the manual
input field decides. -/
def authenticate_client (db : List (String × String))
    (query_param : Option String) (access_id : String) : Option String :=
  match query_param with
  | some cid =>
      if cid ≠ "" ∧ (dbGet db cid).isSome then some cid
      else authManualInput db access_id
  | none => authManualInput db access_id

/-- The per-session Streamlit state initialised at the top of `main`. -/
structure SessionState where
  authenticated : Bool
  client_id : Option String
  full_context : String
  file_count : Nat
  messages : List Msg
  custom_persona : String
  query_count : Nat
deriving DecidableEq, Repr

/-- The authentication step of `main` (the `if not
st.session_state.authenticated` block): on success the session becomes
authenticated and `load_client_data` runs once to fill the context;
on failure the state is untouched.  The boolean records whether the
Document Aggregator was invoked. -/
def authStep (db : List (String × String)) (svc : Option DriveService)
    (folderChildren : String → List DriveEntry) (fuel : Nat)
    (st : SessionState) (query_param : Option String) (access_id : String) :
    SessionState × Bool :=
  if st.authenticated then (st, false)
  else
    match authenticate_client db query_param access_id with
    | some cid =>
        let res := load_client_data db svc folderChildren fuel cid
        ({ st with authenticated := true, client_id := some cid,
                   full_context := res.1, file_count := res.2 }, true)
    | none => (st, false)

/-- `DEMO_LIMIT` from the chat flow of `main`. -/
def DEMO_LIMIT : Nat := 15

/-- The denial message of the chat flow,
`f"🔒 Demo Limit Reached ({DEMO_LIMIT}/{DEMO_LIMIT}). Please contact us for full access."`. -/
def demoLimitMsg : String :=
  "🔒 Demo Limit Reached (" ++ natStr DEMO_LIMIT ++ "/" ++ natStr DEMO_LIMIT ++
    "). Please contact us for full access."

/-- The user-visible outcome of one chat turn. -/
inductive ChatOutcome where
  | answered (response : String)
  | limitMessage (msg : String)
  | modelInitFailed
deriving DecidableEq, Repr

/-- The chat-turn block of `main` (`if prompt := st.chat_input(...)`):
append the user turn, apply the session-local demo limit, and if allowed
and the model initialises, generate and append the assistant turn and
bump `query_count`.  `gem` is the result of `initialize_gemini()`. -/
def chatStep (st : SessionState)
    (gem : Option (String → ℚ → Except String String)) (temperature : ℚ)
    (prompt : String) : SessionState × ChatOutcome :=
  let st1 := { st with messages := st.messages ++ [⟨"user", prompt⟩] }
  let is_demo_user := st.client_id = some "demo"
  if is_demo_user ∧ st.query_count ≥ DEMO_LIMIT then
    (st1, ChatOutcome.limitMessage demoLimitMsg)
  else
    match gem with
    | some client =>
        let response := generate_response client st1.full_context prompt
          st1.messages st1.custom_persona temperature
        ({ st1 with
            messages := st1.messages ++ [⟨"assistant", response⟩],
            query_count := st1.query_count + 1 },
         ChatOutcome.answered response)
    | none => (st1, ChatOutcome.modelInitFailed)

/-! ### Character-level facts about storage keys

Distinct policy limits must never share a storage key: a demo-class key
ends, after its last underscore, in the hour digits, while every other key
ends in the day key, which contains a hyphen.  We classify keys by the
segment after the last underscore. -/

/-- The ten decimal digit characters. -/
def decimalDigits : List Char := ['0', '1', '2', '3', '4', '5', '6', '7', '8', '9']

theorem string_data_append (s t : String) : (s ++ t).data = s.data ++ t.data := rfl

theorem digitChar10_mem (n : Nat) : digitChar10 n ∈ decimalDigits := by
  unfold digitChar10
  split_ifs <;> decide

theorem natDigitsAux_mem (fuel : Nat) : ∀ n c, c ∈ natDigitsAux fuel n →
    c ∈ decimalDigits := by
  induction fuel with
  | zero => intro n c hc; simp [natDigitsAux] at hc
  | succ f ih =>
      intro n c hc
      unfold natDigitsAux at hc
      by_cases h : n < 10
      · rw [if_pos h] at hc
        simp at hc
        exact hc ▸ digitChar10_mem n
      · rw [if_neg h] at hc
        rcases List.mem_append.mp hc with h1 | h2
        · exact ih _ _ h1
        · simp at h2
          exact h2 ▸ digitChar10_mem (n % 10)

theorem natStr_chars (n : Nat) : ∀ c ∈ (natStr n).data, c ∈ decimalDigits := by
  intro c hc
  exact natDigitsAux_mem (n + 1) n c hc

theorem pad2_chars (n : Nat) : ∀ c ∈ (pad2 n).data, c ∈ decimalDigits := by
  intro c hc
  unfold pad2 at hc
  by_cases h : n < 10
  · rw [if_pos h, string_data_append] at hc
    rcases List.mem_append.mp hc with h1 | h2
    · simp at h1
      subst h1
      decide
    · exact natStr_chars n c h2
  · rw [if_neg h] at hc
    exact natStr_chars n c hc

theorem dayTimeKey_chars (now : DateTime) :
    ∀ c ∈ (dayTimeKey now).data, c ∈ decimalDigits ∨ c = '-' := by
  intro c hc
  unfold dayTimeKey at hc
  simp only [string_data_append, List.mem_append] at hc
  rcases hc with (((hy | hm1) | hm) | hd1) | hd
  · exact Or.inl (natStr_chars _ c hy)
  · have h' : c ∈ ['-'] := hm1
    simp at h'
    exact Or.inr h'
  · exact Or.inl (pad2_chars _ c hm)
  · have h' : c ∈ ['-'] := hd1
    simp at h'
    exact Or.inr h'
  · exact Or.inl (pad2_chars _ c hd)

/-- The segment of `s` after its last underscore, reversed. -/
def lastSegR (s : String) : List Char :=
  s.data.reverse.takeWhile (fun ch => ch != '_')

theorem takeWhile_append_cons (p : Char → Bool) (xs : List Char) (y : Char)
    (ys : List Char) (hxs : ∀ x ∈ xs, p x = true) (hy : p y = false) :
    (xs ++ y :: ys).takeWhile p = xs := by
  induction xs with
  | nil => simp [List.takeWhile_cons, hy]
  | cons a as ih =>
      simp only [List.cons_append, List.takeWhile_cons,
        hxs a (List.mem_cons_self a as), if_true]
      rw [ih (fun x hx => hxs x (List.mem_cons_of_mem a hx))]

theorem lastSegR_eq (s : String) (xs b : List Char)
    (h : s.data = xs ++ '_' :: b) (hb : '_' ∉ b) : lastSegR s = b.reverse := by
  unfold lastSegR
  rw [h, List.reverse_append, List.reverse_cons, List.append_assoc]
  exact takeWhile_append_cons _ _ _ _
    (fun x hx => by
      have hxb : x ∈ b := List.mem_reverse.mp hx
      simp only [bne_iff_ne, ne_eq, decide_eq_true_eq]
      intro heq
      exact hb (heq ▸ hxb))
    (by simp)

/-- A key's policy class read off from the segment after its last
underscore: a hyphen there marks a day key (limit 300), none marks the
hour digits of a demo key (limit 30). -/
def keyLimitClass (k : String) : Nat :=
  if '-' ∈ lastSegR k then 300 else 30

theorem underscore_data : "_".data = ['_'] := rfl

theorem hyphen_data : "-".data = ['-'] := rfl

theorem time_key_hour (now : DateTime) : time_key "hour" now = hourTimeKey now := rfl

theorem time_key_day (now : DateTime) : time_key "day" now = dayTimeKey now := rfl

theorem pad2_no_underscore (n : Nat) : '_' ∉ (pad2 n).data := by
  intro h
  have := pad2_chars n '_' h
  simp [decimalDigits] at this

theorem pad2_no_hyphen (n : Nat) : '-' ∉ (pad2 n).data := by
  intro h
  have := pad2_chars n '-' h
  simp [decimalDigits] at this

theorem dayTimeKey_no_underscore (now : DateTime) : '_' ∉ (dayTimeKey now).data := by
  intro h
  rcases dayTimeKey_chars now '_' h with hd | hd
  · simp [decimalDigits] at hd
  · exact absurd hd (by decide)

theorem dayTimeKey_has_hyphen (now : DateTime) : '-' ∈ (dayTimeKey now).data := by
  rw [dayTimeKey]
  simp [string_data_append, hyphen_data]

/-- A tenant's storage key classifies to exactly that tenant's policy
limit: the segment after its last underscore is the hour digits for a
demo-class key and the hyphenated day key for every other tenant. -/
theorem storage_key_class (c : String) (now : DateTime) :
    keyLimitClass (storage_key c now) = (get_limit_config c).1 := by
  by_cases hc : c ∈ (["demo", "demo2"] : List String)
  · have h1 : (get_limit_config c).1 = 30 := by simp [get_limit_config, hc]
    have h2 : (get_limit_config c).2 = "hour" := by simp [get_limit_config, hc]
    have hseg : lastSegR (storage_key c now) = (pad2 now.hour).data.reverse := by
      apply lastSegR_eq _ (c.data ++ '_' :: (dayTimeKey now).data)
      · rw [storage_key, h2, time_key_hour, hourTimeKey]
        simp [string_data_append, underscore_data, List.append_assoc]
      · exact pad2_no_underscore now.hour
    rw [keyLimitClass, hseg, h1, if_neg]
    intro h
    exact pad2_no_hyphen now.hour (List.mem_reverse.mp h)
  · have h1 : (get_limit_config c).1 = 300 := by simp [get_limit_config, hc]
    have h2 : (get_limit_config c).2 = "day" := by simp [get_limit_config, hc]
    have hseg : lastSegR (storage_key c now) = (dayTimeKey now).data.reverse := by
      apply lastSegR_eq _ c.data
      · rw [storage_key, h2, time_key_day]
        simp [string_data_append, underscore_data]
      · exact dayTimeKey_no_underscore now
    rw [keyLimitClass, hseg, h1, if_pos]
    exact List.mem_reverse.mpr (dayTimeKey_has_hyphen now)

/-- Two tenant-bucket pairs that share a storage key share a policy
limit, so no cross-limit key collision is possible. -/
theorem storage_key_limit_eq {c c' : String} {n n' : DateTime}
    (h : storage_key c n = storage_key c' n') :
    (get_limit_config c).1 = (get_limit_config c').1 := by
  rw [← storage_key_class c n, ← storage_key_class c' n', h]

/-! ### Tracker dictionary lemmas -/

theorem trackerGet_set (t : Tracker) (k : String) (v : Nat) (j : String) :
    trackerGet (trackerSet t k v) j = if k = j then some v else trackerGet t j := by
  induction t with
  | nil => simp [trackerSet, trackerGet]
  | cons hd tl ih =>
      obtain ⟨k', v'⟩ := hd
      simp only [trackerSet, trackerGet]
      by_cases h1 : k' = k
      · subst h1
        simp only [if_pos rfl, trackerGet]
        split_ifs <;> simp_all [trackerGet]
      · simp only [if_neg h1, trackerGet, ih]
        split_ifs <;> simp_all

theorem trackerGet_set_self (t : Tracker) (k : String) (v : Nat) :
    trackerGet (trackerSet t k v) k = some v := by
  rw [trackerGet_set]
  simp

theorem trackerSet_set (t : Tracker) (k : String) (v w : Nat) :
    trackerSet (trackerSet t k v) k w = trackerSet t k w := by
  induction t with
  | nil => simp [trackerSet]
  | cons hd tl ih =>
      obtain ⟨k', v'⟩ := hd
      simp only [trackerSet]
      split_ifs with h1 <;> simp_all [trackerSet]

theorem get_limit_config_pos (c : String) : 0 < (get_limit_config c).1 := by
  unfold get_limit_config
  split <;> decide

/-- Sanity: the storage key rendered for the demo tenant at a concrete
wall-clock time. -/
example : storage_key "demo" ⟨2023, 10, 27, 14⟩ = "demo_2023-10-27_14" := by decide

example : storage_key "alpha" ⟨2023, 10, 27, 14⟩ = "alpha_2023-10-27" := by decide

/-- The behaviour of one `check_and_update_limit` call, split on whether
the counter for the current bucket has reached the limit. -/
theorem check_step (c : String) (now : DateTime) (tr : Tracker) :
    (trackerGet tr (storage_key c now) = none →
      trackerCount tr (storage_key c now) = 0)
    ∧ (trackerCount tr (storage_key c now) ≥ (get_limit_config c).1 →
        check_and_update_limit c now tr =
          ((false, trackerCount tr (storage_key c now),
            (get_limit_config c).1, (get_limit_config c).2), tr))
    ∧ (trackerCount tr (storage_key c now) < (get_limit_config c).1 →
        check_and_update_limit c now tr =
          ((true, trackerCount tr (storage_key c now) + 1,
            (get_limit_config c).1, (get_limit_config c).2),
           trackerSet tr (storage_key c now)
             (trackerCount tr (storage_key c now) + 1))) := by
  have hpos := get_limit_config_pos c
  refine ⟨fun h => by simp [trackerCount, h], ?_, ?_⟩
  · intro h
    cases hg : trackerGet tr (storage_key c now) with
    | none =>
        exfalso
        simp [trackerCount, hg] at h
        omega
    | some v =>
        simp only [trackerCount, hg, Option.getD_some] at h ⊢
        simp only [check_and_update_limit, hg, Option.isSome_some, if_true,
          Option.getD_some]
        rw [if_pos h]
  · intro h
    cases hg : trackerGet tr (storage_key c now) with
    | none =>
        simp only [trackerCount, hg, Option.getD_none] at h ⊢
        simp [check_and_update_limit, hg, trackerGet_set_self]
        split_ifs with hc
        · omega
        · rw [trackerSet_set]
    | some v =>
        simp only [trackerCount, hg, Option.getD_some] at h ⊢
        simp only [check_and_update_limit, hg, Option.isSome_some, if_true,
          Option.getD_some]
        split_ifs with hc
        · omega
        · rfl

/-! ### Claim C1 -/

/-- C1: `check_and_update_limit` reads the counter for the tenant's
current bucket key with a missing entry as 0 (so the first check after a
bucket boundary sees count 0); at or above the limit it returns
`(false, counter, limit, period)` and leaves the tracker unchanged; below
it, it increments that counter by exactly 1 and returns
`(true, new_count, limit, period)`. -/
theorem check_and_admit_correct (c : String) (now : DateTime) (tr : Tracker) :
    (trackerGet tr (storage_key c now) = none →
      trackerCount tr (storage_key c now) = 0)
    ∧ (trackerCount tr (storage_key c now) ≥ (get_limit_config c).1 →
        check_and_update_limit c now tr =
          ((false, trackerCount tr (storage_key c now),
            (get_limit_config c).1, (get_limit_config c).2), tr))
    ∧ (trackerCount tr (storage_key c now) < (get_limit_config c).1 →
        check_and_update_limit c now tr =
          ((true, trackerCount tr (storage_key c now) + 1,
            (get_limit_config c).1, (get_limit_config c).2),
           trackerSet tr (storage_key c now)
             (trackerCount tr (storage_key c now) + 1))) :=
  check_step c now tr

/-- Witness for C1 at a concrete input: the demo tenant's very first
check in a fresh bucket is admitted with count 1. -/
theorem check_and_admit_correct_witness :
    trackerCount [] (storage_key "demo" ⟨2023, 10, 27, 14⟩) <
      (get_limit_config "demo").1
    ∧ check_and_update_limit "demo" ⟨2023, 10, 27, 14⟩ [] =
        ((true, 1, 30, "hour"), [("demo_2023-10-27_14", 1)]) := by
  refine ⟨by decide, ?_⟩
  have h := (check_and_admit_correct "demo" ⟨2023, 10, 27, 14⟩ []).2.2 (by decide)
  rw [h]
  decide

/-! ### Claim C3 -/

theorem trackerCount_set (t : Tracker) (k : String) (v : Nat) (j : String) :
    trackerCount (trackerSet t k v) j = if k = j then v else trackerCount t j := by
  rw [trackerCount, trackerGet_set]
  split_ifs <;> simp [trackerCount]

/-- One `check_and_update_limit` call preserves the bound
"every tenant-bucket counter is at most that tenant's limit". -/
theorem check_step_inv {t : Tracker}
    (hInv : ∀ c n, trackerCount t (storage_key c n) ≤ (get_limit_config c).1)
    (c0 : String) (n0 : DateTime) :
    ∀ c n, trackerCount (check_and_update_limit c0 n0 t).2 (storage_key c n) ≤
      (get_limit_config c).1 := by
  intro c n
  rcases le_or_lt (get_limit_config c0).1 (trackerCount t (storage_key c0 n0))
    with hge | hlt
  · rw [(check_step c0 n0 t).2.1 hge]
    exact hInv c n
  · rw [(check_step c0 n0 t).2.2 hlt]
    show trackerCount (trackerSet t (storage_key c0 n0) _) _ ≤ _
    rw [trackerCount_set]
    split_ifs with hk
    · have heq := storage_key_limit_eq hk
      omega
    · exact hInv c n

theorem runChecks_cons (c : String) (n : DateTime)
    (rest : List (String × DateTime)) (t : Tracker) :
    runChecks ((c, n) :: rest) t =
      ((check_and_update_limit c n t).1 ::
        (runChecks rest (check_and_update_limit c n t).2).1,
       (runChecks rest (check_and_update_limit c n t).2).2) := by
  cases hc : check_and_update_limit c n t with
  | mk r t' =>
      cases hr : runChecks rest t' with
      | mk rs t'' => simp [runChecks, hc, hr]

theorem runChecks_inv (calls : List (String × DateTime)) :
    ∀ t, (∀ c n, trackerCount t (storage_key c n) ≤ (get_limit_config c).1) →
      ∀ c n, trackerCount (runChecks calls t).2 (storage_key c n) ≤
        (get_limit_config c).1 := by
  induction calls with
  | nil => intro t h c n; exact h c n
  | cons p rest ih =>
      intro t h c n
      obtain ⟨c0, n0⟩ := p
      rw [runChecks_cons]
      exact ih _ (check_step_inv h c0 n0) c n

/-- C3: starting from the empty tracker of process start, after any
sequence of `check_and_update_limit` calls no tenant-bucket counter
exceeds that tenant's policy limit; every call moves every counter
monotonically upward by at most 1; an admitted call increments exactly
the caller's current bucket counter by 1, and a denied call leaves the
tracker unchanged. -/
theorem usage_counter_invariant :
    (∀ (calls : List (String × DateTime)) (c : String) (n : DateTime),
      trackerCount (runChecks calls []).2 (storage_key c n) ≤
        (get_limit_config c).1)
    ∧ (∀ (c0 : String) (n0 : DateTime) (t : Tracker) (k : String),
        trackerCount t k ≤ trackerCount (check_and_update_limit c0 n0 t).2 k)
    ∧ (∀ (c0 : String) (n0 : DateTime) (t : Tracker) (k : String),
        trackerCount (check_and_update_limit c0 n0 t).2 k ≤ trackerCount t k + 1)
    ∧ (∀ (c0 : String) (n0 : DateTime) (t : Tracker),
        (check_and_update_limit c0 n0 t).1.1 = true →
          trackerCount (check_and_update_limit c0 n0 t).2 (storage_key c0 n0) =
            trackerCount t (storage_key c0 n0) + 1)
    ∧ (∀ (c0 : String) (n0 : DateTime) (t : Tracker),
        (check_and_update_limit c0 n0 t).1.1 = false →
          (check_and_update_limit c0 n0 t).2 = t) := by
  refine ⟨fun calls c n => runChecks_inv calls [] (fun c n => by simp [trackerCount, trackerGet]) c n,
    ?_, ?_, ?_, ?_⟩
  · intro c0 n0 t k
    rcases le_or_lt (get_limit_config c0).1 (trackerCount t (storage_key c0 n0))
      with hge | hlt
    · rw [(check_step c0 n0 t).2.1 hge]
    · rw [(check_step c0 n0 t).2.2 hlt]
      show trackerCount t k ≤ trackerCount (trackerSet t (storage_key c0 n0) _) _
      rw [trackerCount_set]
      split_ifs with hk
      · subst hk; omega
      · exact le_refl _
  · intro c0 n0 t k
    rcases le_or_lt (get_limit_config c0).1 (trackerCount t (storage_key c0 n0))
      with hge | hlt
    · rw [(check_step c0 n0 t).2.1 hge]
      exact Nat.le_succ _
    · rw [(check_step c0 n0 t).2.2 hlt]
      show trackerCount (trackerSet t (storage_key c0 n0) _) _ ≤ _
      rw [trackerCount_set]
      split_ifs with hk
      · subst hk; omega
      · omega
  · intro c0 n0 t hadm
    rcases le_or_lt (get_limit_config c0).1 (trackerCount t (storage_key c0 n0))
      with hge | hlt
    · rw [(check_step c0 n0 t).2.1 hge] at hadm
      simp at hadm
    · rw [(check_step c0 n0 t).2.2 hlt]
      show trackerCount (trackerSet t (storage_key c0 n0) _) _ = _
      rw [trackerCount_set, if_pos rfl]
  · intro c0 n0 t hden
    rcases le_or_lt (get_limit_config c0).1 (trackerCount t (storage_key c0 n0))
      with hge | hlt
    · rw [(check_step c0 n0 t).2.1 hge]
    · rw [(check_step c0 n0 t).2.2 hlt] at hden
      simp at hden

/-- Witness for C3 at a concrete input: with the demo tenant's bucket
counter already at its limit 30, the call is denied and the tracker is
unchanged. -/
theorem usage_counter_invariant_witness :
    (check_and_update_limit "demo" ⟨2023, 10, 27, 14⟩
        [("demo_2023-10-27_14", 30)]).1.1 = false
    ∧ (check_and_update_limit "demo" ⟨2023, 10, 27, 14⟩
        [("demo_2023-10-27_14", 30)]).2 = [("demo_2023-10-27_14", 30)] :=
  ⟨by decide,
   usage_counter_invariant.2.2.2.2 "demo" ⟨2023, 10, 27, 14⟩
     [("demo_2023-10-27_14", 30)] (by decide)⟩

/-! ### Claim C4 -/

/-- Two wall-clock times in the same calendar day. -/
def sameDay (n n' : DateTime) : Prop :=
  n.year = n'.year ∧ n.month = n'.month ∧ n.day = n'.day

theorem dayTimeKey_congr {n n' : DateTime} (h : sameDay n n') :
    dayTimeKey n = dayTimeKey n' := by
  obtain ⟨h1, h2, h3⟩ := h
  rw [dayTimeKey, dayTimeKey, h1, h2, h3]

theorem storage_key_nondemo {c : String}
    (hc : c ∉ (["demo", "demo2"] : List String)) (n : DateTime) :
    storage_key c n = c ++ "_" ++ dayTimeKey n := by
  have h2 : (get_limit_config c).2 = "day" := by simp [get_limit_config, hc]
  rw [storage_key, h2, time_key_day]

theorem storage_key_sameDay {c : String}
    (hc : c ∉ (["demo", "demo2"] : List String)) {n n' : DateTime}
    (h : sameDay n n') : storage_key c n = storage_key c n' := by
  rw [storage_key_nondemo hc, storage_key_nondemo hc, dayTimeKey_congr h]

/-- A run of same-day checks for a non-demo tenant: while the counter
stays within the 300-per-day budget every call is admitted and the
counter advances by exactly the number of calls. -/
theorem run_admits (c : String) (hc : c ∉ (["demo", "demo2"] : List String))
    (n0 : DateTime) :
    ∀ (nows : List DateTime) (t : Tracker),
      (∀ n ∈ nows, sameDay n n0) →
      trackerCount t (storage_key c n0) + nows.length ≤ 300 →
      (∀ r ∈ (runChecks (nows.map fun n => (c, n)) t).1, r.1 = true)
      ∧ trackerCount (runChecks (nows.map fun n => (c, n)) t).2
          (storage_key c n0) =
        trackerCount t (storage_key c n0) + nows.length := by
  have hlim : (get_limit_config c).1 = 300 := by simp [get_limit_config, hc]
  intro nows
  induction nows with
  | nil => intro t _ _; exact ⟨by simp [runChecks], by simp [runChecks]⟩
  | cons n rest ih =>
      intro t hday hbudget
      have hkey : storage_key c n = storage_key c n0 :=
        storage_key_sameDay hc (hday n (List.mem_cons_self n rest))
      have hlt : trackerCount t (storage_key c n) < (get_limit_config c).1 := by
        rw [hkey, hlim]
        simp at hbudget
        omega
      have hstep := (check_step c n t).2.2 hlt
      have hcount' : trackerCount (check_and_update_limit c n t).2
          (storage_key c n0) = trackerCount t (storage_key c n0) + 1 := by
        rw [hstep]
        show trackerCount (trackerSet t (storage_key c n) _) _ = _
        rw [trackerCount_set, if_pos hkey, hkey]
      have hrest := ih (check_and_update_limit c n t).2
        (fun m hm => hday m (List.mem_cons_of_mem n hm))
        (by rw [hcount']; simp at hbudget ⊢; omega)
      constructor
      · intro r hr
        rw [List.map_cons, runChecks_cons] at hr
        rcases List.mem_cons.mp hr with h1 | h2
        · rw [h1, hstep]
        · exact hrest.1 r h2
      · rw [List.map_cons, runChecks_cons]
        show trackerCount (runChecks _ (check_and_update_limit c n t).2).2 _ = _
        rw [hrest.2, hcount']
        simp
        omega

/-- C4: the static policy gives demo-class tenants `(30, hour)` and all
other tenants `(300, day)`; for a non-demo tenant whose day-bucket
counter starts absent, 300 consecutive checks within the same calendar
day are all admitted and a 301st same-day check is denied with
`(false, 300, 300, "day")`. -/
theorem policy_and_day_limit :
    (∀ c, c ∈ (["demo", "demo2"] : List String) →
      get_limit_config c = (30, "hour"))
    ∧ (∀ c, c ∉ (["demo", "demo2"] : List String) →
        get_limit_config c = (300, "day"))
    ∧ (∀ (c : String), c ∉ (["demo", "demo2"] : List String) →
        ∀ (n0 : DateTime) (nows : List DateTime) (t : Tracker),
          nows.length = 300 →
          (∀ n ∈ nows, sameDay n n0) →
          trackerGet t (storage_key c n0) = none →
          (∀ r ∈ (runChecks (nows.map fun n => (c, n)) t).1, r.1 = true)
          ∧ ∀ (n301 : DateTime), sameDay n301 n0 →
              (check_and_update_limit c n301
                (runChecks (nows.map fun n => (c, n)) t).2).1 =
                (false, 300, 300, "day")) := by
  refine ⟨fun c hc => by simp [get_limit_config, hc],
    fun c hc => by simp [get_limit_config, hc], ?_⟩
  intro c hc n0 nows t hlen hday hnone
  have hzero : trackerCount t (storage_key c n0) = 0 := by
    simp [trackerCount, hnone]
  have hrun := run_admits c hc n0 nows t hday (by rw [hzero, hlen])
  refine ⟨hrun.1, ?_⟩
  intro n301 h301
  have hfull : trackerCount (runChecks (nows.map fun n => (c, n)) t).2
      (storage_key c n301) = 300 := by
    rw [storage_key_sameDay hc h301, hrun.2, hzero, hlen]
  have hlim : (get_limit_config c).1 = 300 := by simp [get_limit_config, hc]
  have hper : (get_limit_config c).2 = "day" := by simp [get_limit_config, hc]
  have hge : trackerCount (runChecks (nows.map fun n => (c, n)) t).2
      (storage_key c n301) ≥ (get_limit_config c).1 := by
    rw [hfull, hlim]
  have hstep := (check_step c n301 _).2.1 hge
  rw [hstep, hfull, hlim, hper]

/-- Witness for C4 at a concrete input: tenant `"alpha"`, 300 calls at
one fixed time of day starting from the empty tracker, then a 301st call
that same day, which is denied with `(false, 300, 300, "day")`. -/
theorem policy_and_day_limit_witness :
    (check_and_update_limit "alpha" ⟨2023, 10, 27, 23⟩
      (runChecks ((List.replicate 300 (⟨2023, 10, 27, 14⟩ : DateTime)).map
        fun n => ("alpha", n)) []).2).1 = (false, 300, 300, "day") :=
  (policy_and_day_limit.2.2 "alpha" (by decide) ⟨2023, 10, 27, 14⟩
    (List.replicate 300 ⟨2023, 10, 27, 14⟩) [] (by rw [List.length_replicate])
    (fun n hn => by rw [List.eq_of_mem_replicate hn]; exact ⟨rfl, rfl, rfl⟩)
    (by decide)).2 ⟨2023, 10, 27, 23⟩ ⟨rfl, rfl, rfl⟩

/-! ### Claims C5 and C6 -/

theorem foldl_append_map {α β : Type} (f : α → β) (l : List α) (acc : List β) :
    l.foldl (fun a x => a ++ [f x]) acc = acc ++ l.map f := by
  induction l generalizing acc with
  | nil => simp
  | cons x xs ih => simp [ih]

/-- Files produced by the recursive listing are never folders: an entry
with the folder MIME type is expanded, not collected. -/
theorem list_files_no_folder (fuel : Nat) :
    ∀ es f, f ∈ list_files_in_folder fuel es → f.mimeType ≠ folderMime := by
  induction fuel with
  | zero => intro es f hf; simp [list_files_in_folder] at hf
  | succ fl ih =>
      intro es f hf
      match es with
      | [] => simp [list_files_in_folder] at hf
      | DriveEntry.node i nm m cs :: rest =>
          rw [list_files_in_folder] at hf
          rcases List.mem_append.mp hf with h1 | h2
          · by_cases hm : m = folderMime
            · rw [if_pos hm] at h1
              exact ih cs f h1
            · rw [if_neg hm] at h1
              simp at h1
              rw [h1]
              exact hm
          · exact ih rest f h2

/-- The header block built for one eligible file. -/
def fileBlock (service : DriveService) (f : FileInfo) : String :=
  "=== FILE: " ++ f.name ++ " ===\n" ++
    download_file_content service f.id f.mimeType ++ "\n"

/-- C5: for an authenticated client with a working Drive service, the
aggregate is the `=== FILE: <name> ===`-headed blocks of exactly the
eligible files, in listing order, joined by a blank line, together with
the count of eligible files; folders are never collected (hence never
counted). -/
theorem aggregate_concatenation (db : List (String × String))
    (svc : Option DriveService) (tree : String → List DriveEntry)
    (fuel : Nat) (c folder_id : String) (service : DriveService)
    (hdb : dbGet db c = some folder_id) (hsvc : svc = some service) :
    load_client_data db svc tree fuel c =
      (String.intercalate "\n\n"
        (((list_files_in_folder fuel (tree folder_id)).filter
            (fun f => f.mimeType ∈ supported_mimes)).map (fileBlock service)),
       ((list_files_in_folder fuel (tree folder_id)).filter
          (fun f => f.mimeType ∈ supported_mimes)).length)
    ∧ ∀ f ∈ list_files_in_folder fuel (tree folder_id),
        f.mimeType ≠ folderMime := by
  constructor
  · rw [load_client_data, hdb, hsvc]
    simp only [foldl_append_map, List.nil_append]
    rfl
  · exact list_files_no_folder fuel (tree folder_id)

/-- Witness for C5 at a concrete input: one folder holding a text file, a
nested folder with a CSV file, and an unsupported image, aggregated into
two blocks and `file_count = 2`. -/
theorem aggregate_concatenation_witness :
    load_client_data [("acme", "root")]
      (some ⟨fun _ => Except.ok [], fun _ => Except.ok [0x68, 0x69],
        fun _ => []⟩)
      (fun fid => if fid = "root" then
        [DriveEntry.node "f1" "a.txt" "text/plain" [],
         DriveEntry.node "d1" "sub" "application/vnd.google-apps.folder"
           [DriveEntry.node "f2" "b.csv" "text/csv" []],
         DriveEntry.node "f3" "c.png" "image/png" []]
        else []) 5 "acme" =
      ("=== FILE: a.txt ===\nhi\n\n\n=== FILE: b.csv ===\nhi\n", 2) := by
  have h := (aggregate_concatenation [("acme", "root")]
    (some ⟨fun _ => Except.ok [], fun _ => Except.ok [0x68, 0x69],
      fun _ => []⟩)
    (fun fid => if fid = "root" then
      [DriveEntry.node "f1" "a.txt" "text/plain" [],
       DriveEntry.node "d1" "sub" "application/vnd.google-apps.folder"
         [DriveEntry.node "f2" "b.csv" "text/csv" []],
       DriveEntry.node "f3" "c.png" "image/png" []]
      else []) 5 "acme" "root" _ (by decide) rfl).1
  rw [h]
  rfl

/-- C6: a failing per-file fetch does not abort aggregation: the result
still counts every eligible file, the concatenation still has one block
per eligible file in listing order, and the failing file's block carries
the `[Error reading file: ...]` placeholder as its content. -/
theorem aggregate_error_resilient (db : List (String × String))
    (svc : Option DriveService) (tree : String → List DriveEntry)
    (fuel : Nat) (c folder_id : String) (service : DriveService)
    (bad : FileInfo) (e : String)
    (hdb : dbGet db c = some folder_id) (hsvc : svc = some service)
    (hbad : bad ∈ (list_files_in_folder fuel (tree folder_id)).filter
      (fun f => f.mimeType ∈ supported_mimes))
    (hfail : (if bad.mimeType = gdocMime then service.exportMedia bad.id
              else service.getMedia bad.id) = Except.error e) :
    (load_client_data db svc tree fuel c).2 =
      ((list_files_in_folder fuel (tree folder_id)).filter
        (fun f => f.mimeType ∈ supported_mimes)).length
    ∧ (load_client_data db svc tree fuel c).1 =
        String.intercalate "\n\n"
          (((list_files_in_folder fuel (tree folder_id)).filter
              (fun f => f.mimeType ∈ supported_mimes)).map (fileBlock service))
    ∧ fileBlock service bad =
        "=== FILE: " ++ bad.name ++ " ===\n" ++
          ("[Error reading file: " ++ e ++ "]") ++ "\n" := by
  have h := (aggregate_concatenation db svc tree fuel c folder_id service
    hdb hsvc).1
  refine ⟨by rw [h], by rw [h], ?_⟩
  rw [fileBlock, download_file_content, hfail]

/-- Witness for C6 at a concrete input: of two eligible text files the
second one's raw download raises, yet the count stays 2 and the failing
file contributes the placeholder block. -/
theorem aggregate_error_resilient_witness :
    (load_client_data [("acme", "root")]
      (some ⟨fun _ => Except.ok [], fun fid =>
        if fid = "f2" then Except.error "boom" else Except.ok [0x68, 0x69],
        fun _ => []⟩)
      (fun _ =>
        [DriveEntry.node "f1" "a.txt" "text/plain" [],
         DriveEntry.node "f2" "b.txt" "text/plain" []]) 3 "acme") =
      ("=== FILE: a.txt ===\nhi\n\n\n=== FILE: b.txt ===\n[Error reading file: boom]\n", 2) := by
  have h := aggregate_error_resilient [("acme", "root")]
    (some ⟨fun _ => Except.ok [], fun fid =>
      if fid = "f2" then Except.error "boom" else Except.ok [0x68, 0x69],
      fun _ => []⟩)
    (fun _ =>
      [DriveEntry.node "f1" "a.txt" "text/plain" [],
       DriveEntry.node "f2" "b.txt" "text/plain" []]) 3 "acme" "root" _
    ⟨"f2", "b.txt", "text/plain"⟩ "boom" (by decide) rfl (by decide) rfl
  obtain ⟨h1, h2, _⟩ := h
  exact Prod.ext (h2.trans (by rfl)) (h1.trans (by rfl))

/-! ### Claim C7 -/

/-- On bytes that decode strictly (no ill-formed sequence), the
`errors='ignore'` decoder agrees with strict UTF-8 decoding. -/
theorem strict_decode_agrees (fuel : Nat) :
    ∀ bytes cs, bytes.length ≤ fuel → utf8DecodeStrict bytes = some cs →
      utf8DecodeCoreAux [] fuel bytes = cs := by
  induction fuel with
  | zero =>
      intro bytes cs hlen h
      have hb : bytes = [] := List.length_eq_zero.mp (Nat.le_zero.mp hlen)
      subst hb
      simp [utf8DecodeStrict] at h
      simp [utf8DecodeCoreAux, ← h]
  | succ f ih =>
      intro bytes cs hlen h
      match bytes, hlen with
      | [], _ =>
          simp [utf8DecodeStrict] at h
          simp [utf8DecodeCoreAux, ← h]
      | b1 :: rest, hlen =>
          have hlen1 : rest.length ≤ f := by simpa using hlen
          rw [utf8DecodeStrict.eq_def] at h
          rw [utf8DecodeCoreAux.eq_def]
          simp only [] at h ⊢
          by_cases h1 : b1 < 0x80
          · rw [if_pos h1] at h ⊢
            rcases Option.map_eq_some'.mp h with ⟨cs', hcs', rfl⟩
            rw [ih rest cs' hlen1 hcs']
          · rw [if_neg h1] at h ⊢
            by_cases h2 : 0xC2 ≤ b1 ∧ b1 ≤ 0xDF
            · rw [if_pos h2] at h ⊢
              match rest, hlen1 with
              | [], _ => simp at h
              | b2 :: rest2, hlen1 =>
                  have hlen2 : rest2.length ≤ f := by
                    simp at hlen1
                    omega
                  simp only [] at h ⊢
                  by_cases hc : utf8Cont b2 = true
                  · rw [if_pos hc] at h ⊢
                    rcases Option.map_eq_some'.mp h with ⟨cs', hcs', rfl⟩
                    rw [ih rest2 cs' hlen2 hcs']
                  · rw [if_neg hc] at h
                    simp at h
            · rw [if_neg h2] at h ⊢
              by_cases h3 : 0xE0 ≤ b1 ∧ b1 ≤ 0xEF
              · rw [if_pos h3] at h ⊢
                match rest, hlen1 with
                | [], _ => simp at h
                | b2 :: rest2, hlen1 =>
                    simp only [] at h ⊢
                    by_cases hs3 : utf8Second3 b1 b2 = true
                    · rw [if_pos hs3] at h ⊢
                      match rest2, hlen1 with
                      | [], _ => simp at h
                      | b3 :: rest3, hlen1 =>
                          have hlen3 : rest3.length ≤ f := by
                            simp at hlen1
                            omega
                          simp only [] at h ⊢
                          by_cases hc3 : utf8Cont b3 = true
                          · rw [if_pos hc3] at h ⊢
                            rcases Option.map_eq_some'.mp h with ⟨cs', hcs', rfl⟩
                            rw [ih rest3 cs' hlen3 hcs']
                          · rw [if_neg hc3] at h
                            simp at h
                    · rw [if_neg hs3] at h
                      simp at h
              · rw [if_neg h3] at h ⊢
                by_cases h4 : 0xF0 ≤ b1 ∧ b1 ≤ 0xF4
                · rw [if_pos h4] at h ⊢
                  match rest, hlen1 with
                  | [], _ => simp at h
                  | b2 :: rest2, hlen1 =>
                      simp only [] at h ⊢
                      by_cases hs4 : utf8Second4 b1 b2 = true
                      · rw [if_pos hs4] at h ⊢
                        match rest2, hlen1 with
                        | [], _ => simp at h
                        | b3 :: rest3, hlen1 =>
                            simp only [] at h ⊢
                            by_cases hc3 : utf8Cont b3 = true
                            · rw [if_pos hc3] at h ⊢
                              match rest3, hlen1 with
                              | [], _ => simp at h
                              | b4 :: rest4, hlen1 =>
                                  have hlen4 : rest4.length ≤ f := by
                                    simp at hlen1
                                    omega
                                  simp only [] at h ⊢
                                  by_cases hc4 : utf8Cont b4 = true
                                  · rw [if_pos hc4] at h ⊢
                                    rcases Option.map_eq_some'.mp h with
                                      ⟨cs', hcs', rfl⟩
                                    rw [ih rest4 cs' hlen4 hcs']
                                  · rw [if_neg hc4] at h
                                    simp at h
                            · rw [if_neg hc3] at h
                              simp at h
                      · rw [if_neg hs4] at h
                        simp at h
                · rw [if_neg h4] at h
                  simp at h

/-- C7 as stated is false: `download_file_content` decodes with
`errors='ignore'`, which drops the undecodable byte `0xFF`, whereas
decoding "with undecodable bytes replaced" would insert `U+FFFD`: on
fetched bytes `[0x41, 0xFF, 0x42]` the code returns `"AB"`, not the
replacement decoding `"A� B"` (without the space). -/
theorem download_decode_counterexample :
    download_file_content
      ⟨fun _ => Except.ok [], fun _ => Except.ok [0x41, 0xFF, 0x42],
        fun _ => []⟩ "f1" "text/plain" = "AB"
    ∧ utf8DecodeReplaceSpec [0x41, 0xFF, 0x42] = "A�B"
    ∧ download_file_content
        ⟨fun _ => Except.ok [], fun _ => Except.ok [0x41, 0xFF, 0x42],
          fun _ => []⟩ "f1" "text/plain" ≠
        utf8DecodeReplaceSpec [0x41, 0xFF, 0x42] :=
  ⟨rfl, rfl, by decide⟩

/-- C7 (amended): for every eligible file that is not a word-processor
document, the fetched bytes are decoded as UTF-8 with undecodable bytes
dropped — never causing a failure, and agreeing with strict UTF-8
decoding whenever the bytes are well-formed; word-processor documents
are converted by concatenating paragraph texts with newline
separators. -/
theorem download_decode_amended (service : DriveService) (fid mime : String)
    (bytes : List Nat)
    (hfetch : (if mime = gdocMime then service.exportMedia fid
               else service.getMedia fid) = Except.ok bytes) :
    (mime ≠ docxMime →
      download_file_content service fid mime = utf8DecodeIgnore bytes
      ∧ ∀ cs, utf8DecodeStrict bytes = some cs →
          download_file_content service fid mime = String.mk cs)
    ∧ (mime = docxMime →
        download_file_content service fid mime =
          String.intercalate "\n" (service.docxParagraphs bytes)) := by
  constructor
  · intro hmime
    have hd : download_file_content service fid mime = utf8DecodeIgnore bytes := by
      rw [download_file_content, hfetch]
      simp only []
      rw [if_neg hmime]
    refine ⟨hd, fun cs hcs => ?_⟩
    rw [hd, utf8DecodeIgnore, utf8DecodeCore,
      strict_decode_agrees bytes.length bytes cs (le_refl _) hcs]
  · intro hmime
    rw [download_file_content, hfetch]
    simp only []
    rw [if_pos hmime]

/-- Witness for the amended C7 at concrete inputs: a plain-text file with
well-formed bytes decodes to exactly its strict UTF-8 decoding. -/
theorem download_decode_amended_witness :
    download_file_content
      ⟨fun _ => Except.ok [], fun _ => Except.ok [0x68, 0x69], fun _ => []⟩
      "f1" "text/plain" = "hi" := by
  have h := (download_decode_amended
    ⟨fun _ => Except.ok [], fun _ => Except.ok [0x68, 0x69], fun _ => []⟩
    "f1" "text/plain" [0x68, 0x69] rfl).1 (by decide)
  exact h.2 ['h', 'i'] rfl

/-! ### Claim C8 -/

/-- C8: a tenant id absent from `CLIENT_DATABASE` never authenticates:
`authenticate_client` returns `None` whether the id arrived as URL
parameter or manual input, the session state is untouched (so
`authenticated` stays `false`), and `load_client_data` — the Document
Aggregator — is never invoked (second component `false`). -/
theorem unknown_tenant_rejected (db : List (String × String))
    (svc : Option DriveService) (tree : String → List DriveEntry) (fuel : Nat)
    (st : SessionState) (query_param : Option String) (access_id : String)
    (hq : ∀ cid, query_param = some cid → dbGet db cid = none)
    (ha : dbGet db access_id = none) :
    authenticate_client db query_param access_id = none
    ∧ authStep db svc tree fuel st query_param access_id = (st, false) := by
  have hm : authManualInput db access_id = none := by
    rw [authManualInput, ha]
    simp
  have hauth : authenticate_client db query_param access_id = none := by
    cases query_param with
    | none => simpa [authenticate_client] using hm
    | some cid => simp [authenticate_client, hq cid rfl, hm]
  refine ⟨hauth, ?_⟩
  rw [authStep]
  split_ifs with hA
  · rfl
  · rw [hauth]

/-- Witness for C8 at a concrete input: tenant `"mallory"` is unknown,
authentication fails and the fresh session is left untouched with the
aggregator not invoked. -/
theorem unknown_tenant_rejected_witness :
    authenticate_client [("acme", "root")] (some "mallory") "mallory" = none
    ∧ authStep [("acme", "root")] none (fun _ => []) 1
        ⟨false, none, "", 0, [], "", 0⟩ (some "mallory") "mallory" =
        (⟨false, none, "", 0, [], "", 0⟩, false) :=
  unknown_tenant_rejected [("acme", "root")] none (fun _ => []) 1
    ⟨false, none, "", 0, [], "", 0⟩ (some "mallory") "mallory"
    (fun cid hcid => by simp at hcid; rw [← hcid]; decide) (by decide)

/-! ### Claim C9 -/

/-- C9: whatever the context, question, history, persona override and
temperature, a failing model collaborator makes `generate_response`
return the `"Error generating response: ..."` string — an identifiable
error marker — instead of propagating the exception. -/
theorem generate_response_error (client : String → ℚ → Except String String)
    (full_context user_query : String) (chat_history : List Msg)
    (custom_persona : String) (temperature : ℚ) (e : String)
    (hfail : ∀ p, client p temperature = Except.error e) :
    generate_response client full_context user_query chat_history
        custom_persona temperature = "Error generating response: " ++ e
    ∧ ∃ rest, generate_response client full_context user_query chat_history
        custom_persona temperature = "Error generating response: " ++ rest := by
  have h : generate_response client full_context user_query chat_history
      custom_persona temperature = "Error generating response: " ++ e := by
    rw [generate_response, hfail]
  exact ⟨h, e, h⟩

/-- Witness for C9 at a concrete input: a model stub that always raises
`"quota exceeded"` yields the textual error answer. -/
theorem generate_response_error_witness :
    generate_response (fun _ _ => Except.error "quota exceeded") "ctx" "q"
        [⟨"user", "q"⟩] "" 0 = "Error generating response: quota exceeded" :=
  (generate_response_error (fun _ _ => Except.error "quota exceeded") "ctx"
    "q" [⟨"user", "q"⟩] "" 0 "quota exceeded" (fun _ => rfl)).1

/-! ### Claim C2 -/

/-- C2 is false as stated: the chat flow of `main` never calls
`check_and_update_limit` (`app.py` does not even import `rate_limit.py`).
Concretely, with the demo tenant's hour bucket already at its policy
limit 30 — so the Usage Tracker's check-and-admit would deny — a chat
turn with `query_count = 0` still invokes the Answer Generator. -/
theorem chat_ignores_usage_tracker_counterexample :
    (check_and_update_limit "demo" ⟨2023, 10, 27, 14⟩
        [("demo_2023-10-27_14", 30)]).1.1 = false
    ∧ (chatStep ⟨true, some "demo", "ctx", 1, [], "", 0⟩
        (some fun _ _ => Except.ok "answer") 0 "question").2 =
        ChatOutcome.answered "answer" :=
  ⟨by decide, rfl⟩

/-- C2 (amended): on each user question in a Ready session the chat flow
consults only the session-local demo limit (`query_count < 15`, applied
to the tenant `"demo"` alone) before answering; the Answer Generator is
invoked exactly when that check passes and the model initialises, a
denial is surfaced with the fixed `15/15` limit message, and the
process-wide Usage Tracker plays no part in the decision. -/
theorem chat_session_local_limit (st : SessionState)
    (gem : Option (String → ℚ → Except String String)) (temperature : ℚ)
    (prompt : String) :
    ((∃ r, (chatStep st gem temperature prompt).2 = ChatOutcome.answered r) ↔
      (¬(st.client_id = some "demo" ∧ st.query_count ≥ DEMO_LIMIT)
        ∧ gem.isSome = true))
    ∧ ((st.client_id = some "demo" ∧ st.query_count ≥ DEMO_LIMIT) →
        (chatStep st gem temperature prompt).2 =
          ChatOutcome.limitMessage demoLimitMsg)
    ∧ demoLimitMsg =
        "🔒 Demo Limit Reached (15/15). Please contact us for full access." := by
  refine ⟨?_, ?_, rfl⟩
  · unfold chatStep
    by_cases hlim : st.client_id = some "demo" ∧ st.query_count ≥ DEMO_LIMIT
    · rw [if_pos hlim]
      simp [hlim]
    · rw [if_neg hlim]
      cases gem with
      | none => simp [hlim]
      | some client => simp [hlim]
  · intro hlim
    unfold chatStep
    rw [if_pos hlim]

/-- Witness for the amended C2 at a concrete input: the demo tenant at
`query_count = 15` is denied with the limit message. -/
theorem chat_session_local_limit_witness :
    (chatStep ⟨true, some "demo", "ctx", 1, [], "", 15⟩
        (some fun _ _ => Except.ok "answer") 0 "question").2 =
      ChatOutcome.limitMessage demoLimitMsg :=
  (chat_session_local_limit ⟨true, some "demo", "ctx", 1, [], "", 15⟩
    (some fun _ _ => Except.ok "answer") 0 "question").2.1 ⟨rfl, by decide⟩

/-! ### Claim C10 -/

/-- C10: every submitted question is appended to the history as a user
turn before the limit decision; when the turn is denied by the
session-local demo limit or the model fails to initialise, the rest of
the session state is unchanged — no assistant turn, `query_count` not
incremented; `query_count` rises by exactly 1, with the assistant turn
appended, exactly when a response is generated. -/
theorem chat_turn_frame (st : SessionState)
    (gem : Option (String → ℚ → Except String String)) (temperature : ℚ)
    (prompt : String) :
    ((chatStep st gem temperature prompt).2 =
        ChatOutcome.limitMessage demoLimitMsg →
      (chatStep st gem temperature prompt).1 =
        { st with messages := st.messages ++ [⟨"user", prompt⟩] })
    ∧ ((chatStep st gem temperature prompt).2 = ChatOutcome.modelInitFailed →
      (chatStep st gem temperature prompt).1 =
        { st with messages := st.messages ++ [⟨"user", prompt⟩] })
    ∧ (∀ r, (chatStep st gem temperature prompt).2 = ChatOutcome.answered r →
      (chatStep st gem temperature prompt).1 =
        { st with
            messages := st.messages ++ [⟨"user", prompt⟩, ⟨"assistant", r⟩],
            query_count := st.query_count + 1 }) := by
  unfold chatStep
  by_cases hlim : st.client_id = some "demo" ∧ st.query_count ≥ DEMO_LIMIT
  · rw [if_pos hlim]
    refine ⟨fun _ => rfl, fun h => by simp at h, fun r h => by simp at h⟩
  · rw [if_neg hlim]
    cases gem with
    | none => exact ⟨fun h => by simp at h, fun _ => rfl, fun r h => by simp at h⟩
    | some client =>
        refine ⟨fun h => by simp at h, fun h => by simp at h, fun r h => ?_⟩
        simp only [ChatOutcome.answered.injEq] at h
        simp [← h, List.append_assoc]

/-- Witness for C10 at a concrete input: a demo-tenant turn at the
session limit appends only the user turn and changes nothing else. -/
theorem chat_turn_frame_witness :
    (chatStep ⟨true, some "demo", "ctx", 1, [⟨"user", "old"⟩], "p", 15⟩
        none 0 "question").1 =
      ⟨true, some "demo", "ctx", 1, [⟨"user", "old"⟩, ⟨"user", "question"⟩],
        "p", 15⟩ :=
  (chat_turn_frame ⟨true, some "demo", "ctx", 1, [⟨"user", "old"⟩], "p", 15⟩
    none 0 "question").1 rfl

end ResearchPortal
